import Mathlib

/-!
Shallow embedding of the dunbar personal-relationship manager (Go) for
verifying its specification claims.

Conventions of the embedding:
* Go `time.Time` is modelled by `Dunbar.GoTime`, carrying exactly the
  projections the embedded code uses: the calendar date (`Date()`),
  the clock (`Format` layouts), the weekday, and an absolute instant in
  nanoseconds (`Sub`, `After`, `Before`).  Calendar arithmetic performed by
  `AddDate` is modelled on the calendar fields directly (no DST).
* Go `int` is modelled by `Int`; Go `len` of a string (bytes) is modelled by
  `String.utf8ByteSize`.
* Nondeterministic inputs (the wall clock `time.Now()`, generated UUID bytes,
  provider responses, disk contents) are passed as explicit parameters.
* `lipgloss` style `Render` wraps its argument in SGR escape sequences and
  inserts no newline; since the embedded rendering code only ever consumes
  rendered strings through `strings.Count(s, "\n")` and concatenation, the
  embedding drops the escape sequences (they are newline-free).
-/

namespace Dunbar

/-- Model of Go `time.Time` restricted to the projections used by the code. -/
structure GoTime where
  year : Int
  month : Nat
  day : Nat
  hour : Nat
  minute : Nat
  /-- Embedding of `time.Weekday`: 0 = Sunday, ..., 6 = Saturday. -/
  weekday : Nat
  /-- Absolute instant, in nanoseconds (used by `Sub`, `After`, `Before`). -/
  nanos : Int
deriving Repr, DecidableEq

/-- Go `t1.Sub(t2)` in nanoseconds. -/
def GoTime.sub (t1 t2 : GoTime) : Int := t1.nanos - t2.nanos

/-- The calendar-date triple returned by Go `t.Date()`. -/
def GoTime.dateTriple (t : GoTime) : Int × Nat × Nat := (t.year, t.month, t.day)

/-- Embedding of `sameDay` (messages.go): true iff the two times are on the same day. -/
def sameDay (t1 t2 : GoTime) : Bool :=
  t1.year == t2.year && t1.month == t2.month && t1.day == t2.day

/-- Leap-year rule of the proleptic Gregorian calendar (Go `time`). -/
def isLeapYear (y : Int) : Bool :=
  y % 4 == 0 && (y % 100 != 0 || y % 400 == 0)

/-- Number of days in a month (Go `time`'s calendar). -/
def daysInMonth (y : Int) (m : Nat) : Nat :=
  if m = 2 then (if isLeapYear y then 29 else 28)
  else if m = 4 ∨ m = 6 ∨ m = 9 ∨ m = 11 then 30
  else 31

/-- Calendar date of Go `t.AddDate(0, 0, -1)` (the previous day). -/
def prevDate (t : GoTime) : Int × Nat × Nat :=
  if t.day > 1 then (t.year, t.month, t.day - 1)
  else if t.month > 1 then (t.year, t.month - 1, daysInMonth t.year (t.month - 1))
  else (t.year - 1, 12, 31)

/-- Go `time` month abbreviations (layout `Jan`), 1-indexed. -/
def monthAbbr (m : Nat) : String :=
  match m with
  | 1 => "Jan" | 2 => "Feb" | 3 => "Mar" | 4 => "Apr" | 5 => "May" | 6 => "Jun"
  | 7 => "Jul" | 8 => "Aug" | 9 => "Sep" | 10 => "Oct" | 11 => "Nov" | 12 => "Dec"
  | _ => "%!Month"

/-- Go `time` weekday abbreviations (layout `Mon`), 0 = Sunday. -/
def weekdayAbbr (w : Nat) : String :=
  match w with
  | 0 => "Sun" | 1 => "Mon" | 2 => "Tue" | 3 => "Wed" | 4 => "Thu" | 5 => "Fri"
  | 6 => "Sat"
  | _ => "%!Weekday"

/-- Go `time` full weekday names (layout `Monday`), 0 = Sunday. -/
def weekdayName (w : Nat) : String :=
  match w with
  | 0 => "Sunday" | 1 => "Monday" | 2 => "Tuesday" | 3 => "Wednesday"
  | 4 => "Thursday" | 5 => "Friday" | 6 => "Saturday"
  | _ => "%!Weekday"

/-- Go `t.Format("3:04 PM")`: 12-hour clock, zero-padded minute, AM/PM. -/
def formatClock (t : GoTime) : String :=
  let h12 := if t.hour % 12 = 0 then 12 else t.hour % 12
  let minStr := (if t.minute < 10 then "0" else "") ++ toString t.minute
  let ampm := if t.hour < 12 then "AM" else "PM"
  toString h12 ++ ":" ++ minStr ++ " " ++ ampm

/-- Go `t.Format("Jan 2")`. -/
def formatMonthDay (t : GoTime) : String :=
  monthAbbr t.month ++ " " ++ toString t.day

end Dunbar

namespace Dunbar

/-- Embedding of `PhoneNumber` (contacts.go). -/
structure PhoneNumber where
  value : String
  type : String
deriving Repr, DecidableEq

/-- Embedding of `EmailAddress` (contacts.go). -/
structure EmailAddress where
  value : String
  type : String
deriving Repr, DecidableEq

/-- Embedding of `Address` (contacts.go). -/
structure Address where
  street : String
  city : String
  state : String
  postalCode : String
  country : String
  type : String
deriving Repr, DecidableEq

/-- Embedding of `Organization` (contacts.go). -/
structure Organization where
  name : String
  title : String
  department : String
deriving Repr, DecidableEq

/-- Embedding of `Contact` (contacts.go).  Pointer-valued optional fields become `Option`;
`PhotoData []byte` becomes a list of bytes. -/
structure Contact where
  uid : String
  etag : String
  url : String
  givenName : String
  familyName : String
  fullName : String
  nickname : String
  phoneNumbers : List PhoneNumber
  emailAddresses : List EmailAddress
  addresses : List Address
  organization : Option Organization
  birthday : Option GoTime
  anniversary : Option GoTime
  photoURL : String
  photoData : List Nat
  tags : List String
  notes : String
  lastModified : Option GoTime
  lastSynced : Option GoTime
deriving Repr, DecidableEq

/-- The loop inside `Contact.PrimaryPhone`: first entry whose type is
`"mobile"` or `"cell"`, if any. -/
def findMobilePhone : List PhoneNumber → Option String
  | [] => none
  | p :: ps =>
    if p.type == "mobile" || p.type == "cell" then some p.value
    else findMobilePhone ps

/-- Embedding of `Contact.PrimaryPhone` (contacts.go). -/
def Contact.primaryPhone (c : Contact) : String :=
  match c.phoneNumbers with
  | [] => ""
  | p0 :: _ =>
    match findMobilePhone c.phoneNumbers with
    | some v => v
    | none => p0.value

/-- Embedding of `Contact.PrimaryEmail` (contacts.go). -/
def Contact.primaryEmail (c : Contact) : String :=
  match c.emailAddresses with
  | [] => ""
  | e0 :: _ => e0.value

/-- The contact record persisted (and pushed to the provider) by
`ContactManager.WriteContact` (contacts.go): a UID is generated when absent
(`genUID` stands for `uuid.New().String()`), and `LastModified` is set to the
current time.  File I/O and the provider push do not alter the record. -/
def writeContactRecord (genUID : String) (now : GoTime) (c : Contact) : Contact :=
  let c' := if c.uid = "" then { c with uid := genUID } else c
  { c' with lastModified := some now }

/-- The contact record persisted by
`ContactManager.writeContactWithoutModifyingTimestamp` (contacts.go), used by
`SyncContacts`: `LastSynced` is set to the current time and `LastModified` is
left untouched. -/
def syncWriteRecord (genUID : String) (now : GoTime) (c : Contact) : Contact :=
  let c' := if c.uid = "" then { c with uid := genUID } else c
  { c' with lastSynced := some now }

/-- Go `strings.Contains(s, "-")` (single-character needle). -/
def containsDash (s : String) : Bool := s.data.contains '-'

/-- Outcome of `ContactManager.DeleteContact`: the returned error (if any),
the UIDs for which `provider.DeleteContact` was invoked, and the resulting
set of local contact files (as the list of stored UIDs). -/
structure DeleteResult where
  err : Option String
  providerCalls : List String
  localFiles : List String
deriving Repr, DecidableEq

/-- Embedding of `os.Remove` of the local contact file (contacts.go, `DeleteContact` tail):
removing a present file succeeds; a missing file is reported as
`contact not found`.  The local store is modelled as the list of stored
UIDs. -/
def removeLocalFile (files : List String) (uid : String) :
    Option String × List String :=
  if files.contains uid then (none, files.erase uid)
  else (some ("contact not found: " ++ uid), files)

/-- Embedding of `ContactManager.DeleteContact` (contacts.go).  `providerDelete uid` is the
result of `provider.DeleteContact(uid)` (`none` = success, `some e` = error).
A UID without a hyphen is provider-assigned: the provider delete runs first
and a provider failure returns before local storage is touched. -/
def deleteContact (providerDelete : String → Option String)
    (files : List String) (uid : String) : DeleteResult :=
  let isProviderContact := !containsDash uid
  if isProviderContact then
    match providerDelete uid with
    | some e =>
      { err := some ("failed to delete contact from provider: " ++ e)
        providerCalls := [uid]
        localFiles := files }
    | none =>
      let (e, files') := removeLocalFile files uid
      { err := e, providerCalls := [uid], localFiles := files' }
  else
    let (e, files') := removeLocalFile files uid
    { err := e, providerCalls := [], localFiles := files' }

/-! ### Google People API conversion (contacts.go) -/

/-- Embedding of `peopleAPIName`. -/
structure PeopleAPIName where
  displayName : String
  familyName : String
  givenName : String
  displayNameLastFirst : String
deriving Repr, DecidableEq

/-- Embedding of `peopleAPIPhoneNumber`. -/
structure PeopleAPIPhoneNumber where
  value : String
  type : String
deriving Repr, DecidableEq

/-- Embedding of `peopleAPIEmailAddress`. -/
structure PeopleAPIEmailAddress where
  value : String
  type : String
deriving Repr, DecidableEq

/-- Embedding of `peopleAPIAddress`. -/
structure PeopleAPIAddress where
  streetAddress : String
  city : String
  region : String
  postalCode : String
  country : String
  type : String
deriving Repr, DecidableEq

/-- Embedding of `peopleAPIOrganization`. -/
structure PeopleAPIOrganization where
  name : String
  title : String
  department : String
deriving Repr, DecidableEq

/-- The `date` field of `peopleAPIBirthday`. -/
structure PeopleAPIBirthdayDate where
  year : Int
  month : Int
  day : Int
deriving Repr, DecidableEq

/-- Embedding of `peopleAPIPerson` (photo and biography reduced to their single used
field). -/
structure PeopleAPIPerson where
  resourceName : String
  etag : String
  names : List PeopleAPIName
  phoneNumbers : List PeopleAPIPhoneNumber
  emailAddresses : List PeopleAPIEmailAddress
  addresses : List PeopleAPIAddress
  organizations : List PeopleAPIOrganization
  birthdays : List PeopleAPIBirthdayDate
  photoURLs : List String
  biographies : List String
deriving Repr, DecidableEq

/-- Go `strings.Split` on a single-character separator, at the
character-list level. -/
def goSplitChar (sep : Char) : List Char → List (List Char)
  | [] => [[]]
  | c :: cs =>
    if c = sep then [] :: goSplitChar sep cs
    else
      match goSplitChar sep cs with
      | p :: ps => (c :: p) :: ps
      | [] => [[c]]

/-- The UID extraction at the top of `convertPeopleAPIToContact`
(contacts.go): `"people/c8935729599066447265"` → `"c8935729599066447265"`
(last `/`-separated segment when a `/` is present). -/
def extractUID (resourceName : String) : String :=
  if resourceName.data.contains '/' then
    String.mk ((goSplitChar '/' resourceName.data).getLastD [])
  else resourceName

/-- Go `strings.ToLower` (ASCII letters; the type tags the code lowers are
ASCII). -/
def goToLower (s : String) : String := String.mk (s.data.map Char.toLower)

/-- The empty-type-defaulting in `convertPeopleAPIToContact`: `"other"` when
the remote tag is empty, else the lower-cased remote tag. -/
def normalizeTypeTag (t : String) : String :=
  if t = "" then "other" else goToLower t

/-- Embedding of `convertPeopleAPIToContact` (contacts.go).  The birthday's `time.Date`
value is reduced to its calendar triple in the `GoTime` model (midnight UTC;
the instant is not used by any consumer modelled here, so it is set to 0). -/
def convertPeopleAPIToContact (person : PeopleAPIPerson) : Contact :=
  let uid := extractUID person.resourceName
  let (fullName, givenName, familyName) :=
    match person.names with
    | [] => ("", "", "")
    | n :: _ => (n.displayName, n.givenName, n.familyName)
  let phones := person.phoneNumbers.map fun p =>
    PhoneNumber.mk p.value (normalizeTypeTag p.type)
  let emails := person.emailAddresses.map fun e =>
    EmailAddress.mk e.value (normalizeTypeTag e.type)
  let addrs := person.addresses.map fun a =>
    Address.mk a.streetAddress a.city a.region a.postalCode a.country
      (normalizeTypeTag a.type)
  let org :=
    match person.organizations with
    | [] => none
    | o :: _ => some (Organization.mk o.name o.title o.department)
  let bday :=
    match person.birthdays with
    | [] => none
    | b :: _ =>
      if b.year > 0 ∧ b.month > 0 ∧ b.day > 0 then
        some (GoTime.mk b.year b.month.toNat b.day.toNat 0 0 0 0)
      else none
  let photoURL :=
    match person.photoURLs with
    | [] => ""
    | u :: _ => u
  let notes :=
    match person.biographies with
    | [] => ""
    | v :: _ => v
  { uid := uid
    etag := person.etag
    url := ""
    givenName := givenName
    familyName := familyName
    fullName := fullName
    nickname := ""
    phoneNumbers := phones
    emailAddresses := emails
    addresses := addrs
    organization := org
    birthday := bday
    anniversary := none
    photoURL := photoURL
    photoData := []
    tags := []
    notes := notes
    lastModified := none
    lastSynced := none }

/-- Hex digits used by the uuid encoding. -/
def hexDigit (n : Nat) : Char :=
  "0123456789abcdef".data.getD (n % 16) '0'

/-- Hexadecimal encoding of one byte. -/
def hexByte (b : Nat) : List Char := [hexDigit (b / 16), hexDigit (b % 16)]

/-- Hexadecimal encoding of a byte list. -/
def hexBytes (bs : List Nat) : List Char := (bs.map hexByte).flatten

/-- Modelled from the spec: the external `github.com/google/uuid` library
(not part of this repository) renders `uuid.New().String()` in the canonical
RFC 4122 form `xxxxxxxx-xxxx-xxxx-xxxx-xxxxxxxxxxxx`: the 16 random bytes
hex-encoded in groups of 4, 2, 2, 2 and 6 bytes joined by hyphens.
`bs` are the 16 generated bytes. -/
def uuidString (bs : List Nat) : String :=
  String.mk
    (hexBytes (bs.take 4) ++ '-' ::
      hexBytes ((bs.drop 4).take 2) ++ '-' ::
        hexBytes ((bs.drop 6).take 2) ++ '-' ::
          hexBytes ((bs.drop 8).take 2) ++ '-' ::
            hexBytes ((bs.drop 10).take 6))

/-! ### Messages data model (messages.go) -/

/-- Embedding of `Attachment` (messages.go). -/
structure Attachment where
  type : String
  srcURL : String
  fileName : String
  fileSize : Int
  mimeType : String
  duration : Int
  width : Int
  height : Int
  isGif : Bool
  isSticker : Bool
  isVoiceNote : Bool
deriving Repr, DecidableEq

/-- Embedding of `Message` (messages.go). -/
structure Message where
  id : String
  contactUID : String
  timestamp : GoTime
  senderUID : String
  senderName : String
  conversationUID : String
  chatTitle : String
  text : String
  platform : String
  platformID : String
  isSent : Bool
  attachments : List Attachment
  sortKey : String
deriving Repr, DecidableEq

/-- Embedding of `Conversation` (messages.go). -/
structure Conversation where
  id : String
  accountID : String
  platform : String
  title : String
  type : String
  participantUIDs : List String
  participantCount : Int
  unreadCount : Int
  lastActivity : GoTime
  isArchived : Bool
  isMuted : Bool
  isPinned : Bool
deriving Repr, DecidableEq

/-! ### TUI message rendering (messages.go) -/

/-- Embedding of `isEmoji` (messages.go). -/
def isEmoji (r : Char) : Bool :=
  let n := r.toNat
  (0x1F600 ≤ n && n ≤ 0x1F64F) ||
  (0x1F300 ≤ n && n ≤ 0x1F5FF) ||
  (0x1F680 ≤ n && n ≤ 0x1F6FF) ||
  (0x1F1E0 ≤ n && n ≤ 0x1F1FF) ||
  (0x2600 ≤ n && n ≤ 0x26FF) ||
  (0x2700 ≤ n && n ≤ 0x27BF) ||
  (0xFE00 ≤ n && n ≤ 0xFE0F) ||
  (0x1F900 ≤ n && n ≤ 0x1F9FF) ||
  (0x1FA00 ≤ n && n ≤ 0x1FA6F)

/-- Embedding of `calculateDisplayWidth` (messages.go): emojis count double. -/
def calculateDisplayWidth (s : String) : Int :=
  s.data.foldl (fun w r => w + if isEmoji r then 2 else 1) 0

/-- Splitting a character list at every character satisfying `p` (the
splitting underlying Go `strings.Fields`). -/
def goSplitPred (p : Char → Bool) : List Char → List (List Char)
  | [] => [[]]
  | c :: cs =>
    if p c then [] :: goSplitPred p cs
    else
      match goSplitPred p cs with
      | q :: qs => (c :: q) :: qs
      | [] => [[c]]

/-- Go `strings.Fields`: split on whitespace runs, dropping empties. -/
def goFields (s : String) : List String :=
  ((goSplitPred Char.isWhitespace s.data).map String.mk).filter (· ≠ "")

/-- Go `len` of a string (its UTF-8 byte count), as an `Int`. -/
def goLen (s : String) : Int := s.utf8ByteSize

/-- The accumulation loop of `wrapText` (messages.go): `cur` is
`currentLine`. -/
def wrapLoop (width : Int) (cur : String) : List String → List String
  | [] => if cur ≠ "" then [cur] else []
  | w :: ws =>
    if goLen cur + 1 + goLen w > width then cur :: wrapLoop width w ws
    else wrapLoop width (cur ++ " " ++ w) ws

/-- Embedding of `wrapText` (messages.go): greedy word wrap by byte length. -/
def wrapText (text : String) (width : Int) : List String :=
  if width ≤ 0 then [text]
  else
    match goFields text with
    | [] => [""]
    | w :: ws => wrapLoop width w ws

/-- Embedding of `shouldGroupWithPrevious` (messages.go): same sender, same day, and at
most 5 minutes apart in either direction. -/
def shouldGroupWithPrevious (msg : Message) (prevMsg : Option Message) : Bool :=
  match prevMsg with
  | none => false
  | some prev =>
    if msg.senderUID ≠ prev.senderUID then false
    else if ¬sameDay msg.timestamp prev.timestamp then false
    else
      let timeDiff := msg.timestamp.sub prev.timestamp
      let fiveMinutes : Int := 5 * 60 * 1000000000
      if timeDiff > fiveMinutes ∨ timeDiff < -fiveMinutes then false
      else true

/-- Embedding of `formatTime` (messages.go): recency-dependent timestamp rendering.
`now` is `time.Now()`. -/
def formatTime (now t : GoTime) : String :=
  if sameDay t now then formatClock t
  else if now.sub t < 7 * 24 * 3600 * 1000000000 ∧ now.sub t ≥ 0 then
    weekdayAbbr t.weekday ++ " " ++ formatClock t
  else if t.year = now.year then formatMonthDay t
  else formatMonthDay t ++ ", " ++ toString t.year

/-- Embedding of `formatDateSeparator` (messages.go).  `now.AddDate(0, 0, -1)` is modelled
by `prevDate`; `now.AddDate(0, 0, -daysSinceSunday)` shifts the instant by
whole days. -/
def formatDateSeparator (now t : GoTime) : String :=
  if sameDay t now then "Today"
  else if t.dateTriple = prevDate now then "Yesterday"
  else
    let startOfWeekNanos := now.nanos - (now.weekday : Int) * 24 * 3600 * 1000000000
    if t.nanos > startOfWeekNanos ∧ t.nanos < now.nanos then
      weekdayName t.weekday
    else if t.year = now.year then
      weekdayAbbr t.weekday ++ ", " ++ formatMonthDay t
    else
      weekdayAbbr t.weekday ++ ", " ++ formatMonthDay t ++ ", " ++ toString t.year

/-- Embedding of `DateSeparator` (messages.go). -/
structure DateSeparator where
  text : String
  date : GoTime
deriving Repr, DecidableEq

/-- Embedding of `displayItem` (messages.go): a message or a date separator. -/
inductive DisplayItem where
  | message (m : Message)
  | separator (s : DateSeparator)
deriving Repr, DecidableEq

/-- Embedding of `displayItem.isMessage`. -/
def DisplayItem.isMessage : DisplayItem → Bool
  | .message _ => true
  | .separator _ => false

/-- Embedding of `displayItem.isSeparator`. -/
def DisplayItem.isSeparator : DisplayItem → Bool
  | .message _ => false
  | .separator _ => true

/-- The loop of `insertDateSeparators` (messages.go) after the first
iteration: `lastDate` is only updated when a separator is emitted. -/
def insertDateSeparatorsLoop (now : GoTime) (lastDate : GoTime) :
    List Message → List DisplayItem
  | [] => []
  | m :: rest =>
    if ¬sameDay m.timestamp lastDate then
      .separator ⟨formatDateSeparator now m.timestamp, m.timestamp⟩ ::
        .message m :: insertDateSeparatorsLoop now m.timestamp rest
    else
      .message m :: insertDateSeparatorsLoop now lastDate rest

/-- Embedding of `insertDateSeparators` (messages.go): a separator is emitted before the
first message (`i == 0`) and whenever the day changes relative to
`lastDate`. -/
def insertDateSeparators (now : GoTime) : List Message → List DisplayItem
  | [] => []
  | m :: rest =>
    .separator ⟨formatDateSeparator now m.timestamp, m.timestamp⟩ ::
      .message m :: insertDateSeparatorsLoop now m.timestamp rest

/-- Go `strings.Repeat(s, n)` for a single character, with Go's behaviour of
producing the empty string for a non-positive count. -/
def repeatChar (c : Char) (n : Int) : String :=
  String.mk (List.replicate n.toNat c)

/-- Embedding of `renderDateSeparator` (messages.go).  Note `len(text)` is a byte count
and the division is Go integer division (operands are positive in the branch
where it occurs). -/
def renderDateSeparator (sep : DateSeparator) (width : Int) : String :=
  let text := sep.text
  let textWidth := goLen text + 2
  if textWidth ≥ width - 4 then text ++ "\n"
  else
    let lineWidth := (width - textWidth) / 2
    let leftLine := repeatChar '─' lineWidth
    let rightLine := repeatChar '─' (width - textWidth - lineWidth)
    leftLine ++ " " ++ text ++ " " ++ rightLine ++ "\n"

/-- Distinct attachment types in order of first occurrence.  (Go collects the
counts in a map whose iteration order is unspecified; the embedding fixes
first-occurrence order.) -/
def firstOccurrences : List String → List String
  | [] => []
  | t :: ts => t :: firstOccurrences (ts.filter (· ≠ t))
termination_by l => l.length
decreasing_by
  simp only [List.length_cons]
  exact Nat.lt_succ_of_le (List.length_filter_le _ _)

/-- One attachment indicator of `formatMessage` (messages.go). -/
def attachmentIndicator (ty : String) (count : Nat) : String :=
  match ty with
  | "img" => if count = 1 then "📷 Image" else "📷 " ++ toString count ++ " Images"
  | "video" => if count = 1 then "🎥 Video" else "🎥 " ++ toString count ++ " Videos"
  | "audio" => if count = 1 then "🎵 Audio" else "🎵 " ++ toString count ++ " Audio"
  | _ => if count = 1 then "📎 File" else "📎 " ++ toString count ++ " Files"

/-- The attachment-indicator prefixing of the message text in `formatMessage`
(messages.go). -/
def messageTextWithAttachments (msg : Message) : String :=
  if msg.attachments ≠ [] then
    let types := firstOccurrences (msg.attachments.map (·.type))
    let indicators := types.map fun ty =>
      attachmentIndicator ty (msg.attachments.countP (fun a => a.type == ty))
    let joined := String.intercalate ", " indicators
    if msg.text ≠ "" then "[" ++ joined ++ "] " ++ msg.text
    else "[" ++ joined ++ "]"
  else msg.text

/-- Embedding of `formatMessage` (messages.go) with `isSelected = false` (the only value
the viewport math passes): spacing line between sender groups, sender/time
header unless grouped, then the wrapped message body.  Styling (`lipgloss`
`Render`) inserts no newlines and is dropped. -/
def formatMessage (now : GoTime) (msg : Message) (width : Int)
    (prevMsg : Option Message) : String :=
  let shouldGroup := shouldGroupWithPrevious msg prevMsg
  let spacer := if ¬shouldGroup ∧ prevMsg.isSome then "\n" else ""
  let header :=
    if ¬shouldGroup then
      let timeStr := formatTime now msg.timestamp
      if msg.isSent then
        let combinedText := "You · " ++ timeStr
        let combinedWidth := calculateDisplayWidth combinedText
        let padding := width - combinedWidth - 2
        let padding := if padding < 0 then 0 else padding
        repeatChar ' ' padding ++ "You" ++ " · " ++ timeStr ++ "\n"
      else
        msg.senderName ++ " · " ++ timeStr ++ "\n"
    else ""
  let msgText := messageTextWithAttachments msg
  let wrappedLines := wrapText msgText (width - 4)
  let body := String.join (wrappedLines.map fun line =>
    if msg.isSent then
      let lineWidth := calculateDisplayWidth line
      let indent : Int := 2
      let padding := width - lineWidth - indent - 2
      let padding := if padding < 0 then 0 else padding
      repeatChar ' ' padding ++ repeatChar ' ' indent ++ line ++ "\n"
    else
      repeatChar ' ' 2 ++ line ++ "\n")
  spacer ++ header ++ body

/-- Go `strings.Count(s, "\n")`. -/
def countNewlines (s : String) : Nat := s.data.count '\n'

/-- The loop of `calculateVisibleMessageCount` (messages.go), carrying
`messageIndex`, `linesUsed`, `messageCount` and `prevMsg`.  Both overflow
checks `break` out of the loop, returning the count accumulated so far. -/
def calcLoop (now : GoTime) (startIndex width availableHeight : Int) :
    List DisplayItem → Int → Int → Int → Option Message → Int
  | [], _messageIndex, _linesUsed, messageCount, _prevMsg => messageCount
  | .message m :: rest, messageIndex, linesUsed, messageCount, prevMsg =>
    if messageIndex < startIndex then
      calcLoop now startIndex width availableHeight rest
        (messageIndex + 1) linesUsed messageCount prevMsg
    else
      let rendered := formatMessage now m width prevMsg
      let lineCount : Int := countNewlines rendered
      if linesUsed + lineCount > availableHeight then messageCount
      else
        calcLoop now startIndex width availableHeight rest
          (messageIndex + 1) (linesUsed + lineCount) (messageCount + 1) (some m)
  | .separator sep :: rest, messageIndex, linesUsed, messageCount, prevMsg =>
    if messageIndex ≥ startIndex then
      let rendered := renderDateSeparator sep width
      let lineCount : Int := countNewlines rendered + 1
      if linesUsed + lineCount > availableHeight then messageCount
      else
        calcLoop now startIndex width availableHeight rest
          messageIndex (linesUsed + lineCount) messageCount none
    else
      calcLoop now startIndex width availableHeight rest
        messageIndex linesUsed messageCount prevMsg

/-- Embedding of `calculateVisibleMessageCount` (messages.go). -/
def calculateVisibleMessageCount (now : GoTime) (msgs : List Message)
    (startIndex width availableHeight : Int) : Int :=
  if msgs.length = 0 ∨ startIndex ≥ (msgs.length : Int) then 0
  else
    let displayItems := insertDateSeparators now msgs
    max 1 (calcLoop now startIndex width availableHeight displayItems 0 0 0 none)

/-- The sequence of display records considered from the start index, each with
its rendered height (`true` = message, `false` = date separator), carrying the
same `messageIndex`/`prevMsg` threading as `calcLoop` but no height budget. -/
def recordsFrom (now : GoTime) (startIndex width : Int) :
    List DisplayItem → Int → Option Message → List (Bool × Int)
  | [], _messageIndex, _prevMsg => []
  | .message m :: rest, messageIndex, prevMsg =>
    if messageIndex < startIndex then
      recordsFrom now startIndex width rest (messageIndex + 1) prevMsg
    else
      (true, (countNewlines (formatMessage now m width prevMsg) : Int)) ::
        recordsFrom now startIndex width rest (messageIndex + 1) (some m)
  | .separator sep :: rest, messageIndex, prevMsg =>
    if messageIndex ≥ startIndex then
      (false, (countNewlines (renderDateSeparator sep width) : Int) + 1) ::
        recordsFrom now startIndex width rest messageIndex none
    else
      recordsFrom now startIndex width rest messageIndex prevMsg

/-- Modelled from the spec's words: greedily accumulate the heights of the
display records, stopping before the first record that would overflow the
available height, and count the messages (not the separators) that fit. -/
def greedyVisible (availableHeight : Int) :
    List (Bool × Int) → Int → Int → Int
  | [], _used, count => count
  | (isMsg, h) :: rest, used, count =>
    if used + h > availableHeight then count
    else greedyVisible availableHeight rest (used + h)
      (count + if isMsg then 1 else 0)

/-- The `G`/`end` probe loop of `messagesModel.Update` (messages.go): probe
candidate start indices decreasing from `len(messages) - 1`; `some s` is the
assignment `m.messagesViewTop = s` followed by `break`, `none` means the loop
fell through without assigning. -/
def jumpProbe (now : GoTime) (msgs : List Message)
    (width availableHeight : Int) : Nat → Option Nat
  | 0 =>
    if (0 : Int) + calculateVisibleMessageCount now msgs 0 width availableHeight
        ≥ (msgs.length : Int) then some 0
    else none
  | i + 1 =>
    if ((i : Int) + 1) + calculateVisibleMessageCount now msgs ((i : Int) + 1)
        width availableHeight ≥ (msgs.length : Int) then some (i + 1)
    else jumpProbe now msgs width availableHeight i

/-- The viewport-top assignment performed by the `G`/`end` case of
`messagesModel.Update` (messages.go) for a non-empty message list. -/
def jumpToEndViewTop (now : GoTime) (msgs : List Message)
    (width availableHeight : Int) : Option Nat :=
  if msgs.length = 0 then none
  else jumpProbe now msgs width availableHeight (msgs.length - 1)

/-! ### MessageManager.Sync (messages.go) -/

/-- A persistence call made by `MessageManager.Sync` against the database. -/
inductive DBCall where
  | saveConversations (cs : List Conversation)
  | saveMessages (ms : List Message)
deriving Repr, DecidableEq

/-- Embedding of `MessageManager.Sync` (messages.go).  `providerSync` is the result of
`provider.Sync()`; `saveConversationsErr`/`saveMessagesErr` give the outcome
of the corresponding `db` calls (`none` = success).  Returned: the error of
`Sync` (if any) and the database calls actually issued, in order. -/
def messageManagerSync
    (providerSync : Except String (List Conversation × List Message))
    (saveConversationsErr : List Conversation → Option String)
    (saveMessagesErr : List Message → Option String) :
    Option String × List DBCall :=
  match providerSync with
  | .error e => (some e, [])
  | .ok (conversations, msgs) =>
    match saveConversationsErr conversations with
    | some e => (some e, [.saveConversations conversations])
    | none =>
      match saveMessagesErr msgs with
      | some e =>
        (some e, [.saveConversations conversations, .saveMessages msgs])
      | none =>
        (none, [.saveConversations conversations, .saveMessages msgs])

/-! ### Contacts TUI navigation (contactsModel.Update) -/

/-- The navigation state of `contactsModel` (cursor, viewport top, window
height; the contact list itself).  Go `int` fields are modelled by `Int`. -/
structure ContactsModel where
  contacts : List Contact
  cursor : Int
  viewportTop : Int
  height : Int
deriving Repr

/-- The navigation key events handled by `contactsModel.Update` (`up`/`k`,
`down`/`j`, `g`/`home`, `G`/`end`, `pgup`, `pgdown`). -/
inductive NavKey where
  | up
  | down
  | home
  | toEnd
  | pgup
  | pgdown
deriving Repr, DecidableEq

/-- The navigation cases of `contactsModel.Update` (TUI source): cursor and
viewport-top updates for the six navigation keys. -/
def contactsNavUpdate (m : ContactsModel) (key : NavKey) : ContactsModel :=
  let n : Int := m.contacts.length
  match key with
  | .up =>
    if m.cursor > 0 then
      let cursor := m.cursor - 1
      { m with
        cursor := cursor
        viewportTop := if cursor < m.viewportTop then cursor else m.viewportTop }
    else m
  | .down =>
    if m.cursor < n - 1 then
      let cursor := m.cursor + 1
      { m with
        cursor := cursor
        viewportTop :=
          if cursor ≥ m.viewportTop + m.height then cursor - m.height + 1
          else m.viewportTop }
    else m
  | .home => { m with cursor := 0, viewportTop := 0 }
  | .toEnd => { m with cursor := n - 1, viewportTop := max 0 (n - m.height) }
  | .pgup =>
    { m with
      cursor := max 0 (m.cursor - m.height)
      viewportTop := max 0 (m.viewportTop - m.height) }
  | .pgdown =>
    { m with
      cursor := min (n - 1) (m.cursor + m.height)
      viewportTop := min (max 0 (n - m.height)) (m.viewportTop + m.height) }

/-- The navigation invariant of the contacts list TUI:
`0 ≤ viewportTop ≤ cursor ≤ len(contacts) - 1`. -/
def contactsNavInvariant (m : ContactsModel) : Prop :=
  0 ≤ m.viewportTop ∧ m.viewportTop ≤ m.cursor ∧
    m.cursor ≤ (m.contacts.length : Int) - 1

/-! ### Fixtures -/

/-- A contact with every field empty, used as the base of concrete test
records. -/
def baseContact : Contact :=
  { uid := "", etag := "", url := "", givenName := "", familyName := ""
    fullName := "", nickname := "", phoneNumbers := [], emailAddresses := []
    addresses := [], organization := none, birthday := none
    anniversary := none, photoURL := "", photoData := [], tags := []
    notes := "", lastModified := none, lastSynced := none }

/-- A fixed wall-clock instant (2024-06-01, a Saturday, noon). -/
def fixedNow : GoTime := ⟨2024, 6, 1, 12, 0, 6, 1000000000000⟩

/-- A received message from sender `alice` on 2024-06-01 at 10:`i` AM. -/
def fixtureMsg (i : Nat) (txt : String) : Message :=
  { id := toString i, contactUID := "c"
    timestamp := ⟨2024, 6, 1, 10, i, 6, (i : Int) * 60 * 1000000000⟩
    senderUID := "alice", senderName := "Al", conversationUID := "conv"
    chatTitle := "t", text := txt, platform := "p", platformID := "pid"
    isSent := false, attachments := [], sortKey := "" }

/-- Six same-day messages from one sender, one minute apart.  At width 10 the
first renders to 2 lines (header + one body line) and the remaining five are
grouped, each rendering to 2 body lines. -/
def fixtureMsgs : List Message :=
  [fixtureMsg 0 "hi", fixtureMsg 1 "aaaaaaa bbbbbbb",
    fixtureMsg 2 "aaaaaaa bbbbbbb", fixtureMsg 3 "aaaaaaa bbbbbbb",
    fixtureMsg 4 "aaaaaaa bbbbbbb", fixtureMsg 5 "aaaaaaa bbbbbbb"]

/-! ### Claim C8: primary phone selection -/

/-- Modelled from the spec's words: first entry whose type is `"mobile"` or
`"cell"`, else first entry, else empty. -/
def primaryPhoneSpec (c : Contact) : String :=
  match c.phoneNumbers.find? (fun p => p.type == "mobile" || p.type == "cell") with
  | some p => p.value
  | none =>
    match c.phoneNumbers with
    | [] => ""
    | p :: _ => p.value

theorem findMobilePhone_eq_find (l : List PhoneNumber) :
    findMobilePhone l =
      (l.find? (fun p => p.type == "mobile" || p.type == "cell")).map
        (fun p => p.value) := by
  induction l with
  | nil => rfl
  | cons p ps ih =>
    by_cases h : (p.type == "mobile" || p.type == "cell") = true
    · simp [findMobilePhone, List.find?_cons, h]
    · simp [findMobilePhone, List.find?_cons, h, ih]

/-- C8: `PrimaryPhone` returns the value of the first phone number typed
`"mobile"` or `"cell"`, else the value of the first phone number, else the
empty string; in particular `[{1,home},{2,mobile}]` yields `"2"`,
`[{1,home}]` yields `"1"`, and `[]` yields `""`. -/
theorem primaryPhone_selection :
    (∀ c : Contact, c.primaryPhone = primaryPhoneSpec c)
    ∧ ({ baseContact with
          phoneNumbers := [⟨"1", "home"⟩, ⟨"2", "mobile"⟩] } :
            Contact).primaryPhone = "2"
    ∧ ({ baseContact with
          phoneNumbers := [⟨"1", "home"⟩] } : Contact).primaryPhone = "1"
    ∧ (baseContact.primaryPhone = "") := by
  refine ⟨fun c => ?_, by decide, by decide, by decide⟩
  unfold Contact.primaryPhone primaryPhoneSpec
  rw [findMobilePhone_eq_find]
  cases c.phoneNumbers with
  | nil => rfl
  | cons p ps => cases (p :: ps).find? fun p => p.type == "mobile" || p.type == "cell" <;> rfl

/-! ### Claim C2: timestamp framing of write vs sync-write -/

/-- C2: a local `WriteContact` stamps `last_modified = now` and leaves
`last_synced` and every other given field unchanged (generating a UID only
when absent); a sync-originated write stamps `last_synced = now` and leaves
`last_modified` and every other field unchanged. -/
theorem writeContact_timestampFraming :
    ∀ (genUID : String) (now : GoTime) (c : Contact),
      ((writeContactRecord genUID now c).lastModified = some now
        ∧ (writeContactRecord genUID now c).lastSynced = c.lastSynced
        ∧ (writeContactRecord genUID now c).uid
            = (if c.uid = "" then genUID else c.uid)
        ∧ (writeContactRecord genUID now c).etag = c.etag
        ∧ (writeContactRecord genUID now c).url = c.url
        ∧ (writeContactRecord genUID now c).givenName = c.givenName
        ∧ (writeContactRecord genUID now c).familyName = c.familyName
        ∧ (writeContactRecord genUID now c).fullName = c.fullName
        ∧ (writeContactRecord genUID now c).nickname = c.nickname
        ∧ (writeContactRecord genUID now c).phoneNumbers = c.phoneNumbers
        ∧ (writeContactRecord genUID now c).emailAddresses = c.emailAddresses
        ∧ (writeContactRecord genUID now c).addresses = c.addresses
        ∧ (writeContactRecord genUID now c).organization = c.organization
        ∧ (writeContactRecord genUID now c).birthday = c.birthday
        ∧ (writeContactRecord genUID now c).anniversary = c.anniversary
        ∧ (writeContactRecord genUID now c).photoURL = c.photoURL
        ∧ (writeContactRecord genUID now c).photoData = c.photoData
        ∧ (writeContactRecord genUID now c).tags = c.tags
        ∧ (writeContactRecord genUID now c).notes = c.notes)
      ∧ ((syncWriteRecord genUID now c).lastSynced = some now
        ∧ (syncWriteRecord genUID now c).lastModified = c.lastModified
        ∧ (syncWriteRecord genUID now c).uid
            = (if c.uid = "" then genUID else c.uid)
        ∧ (syncWriteRecord genUID now c).etag = c.etag
        ∧ (syncWriteRecord genUID now c).url = c.url
        ∧ (syncWriteRecord genUID now c).givenName = c.givenName
        ∧ (syncWriteRecord genUID now c).familyName = c.familyName
        ∧ (syncWriteRecord genUID now c).fullName = c.fullName
        ∧ (syncWriteRecord genUID now c).nickname = c.nickname
        ∧ (syncWriteRecord genUID now c).phoneNumbers = c.phoneNumbers
        ∧ (syncWriteRecord genUID now c).emailAddresses = c.emailAddresses
        ∧ (syncWriteRecord genUID now c).addresses = c.addresses
        ∧ (syncWriteRecord genUID now c).organization = c.organization
        ∧ (syncWriteRecord genUID now c).birthday = c.birthday
        ∧ (syncWriteRecord genUID now c).anniversary = c.anniversary
        ∧ (syncWriteRecord genUID now c).photoURL = c.photoURL
        ∧ (syncWriteRecord genUID now c).photoData = c.photoData
        ∧ (syncWriteRecord genUID now c).tags = c.tags
        ∧ (syncWriteRecord genUID now c).notes = c.notes) := by
  intro genUID now c
  by_cases h : c.uid = "" <;>
    simp [writeContactRecord, syncWriteRecord, h]

/-! ### Claim C1: delete routing by UID shape -/

/-- C1: `DeleteContact` routes by UID shape.  A UID without a hyphen invokes
the provider delete first; a provider failure is returned with the local
store untouched, and a provider success is followed by the local removal.  A
UID with a hyphen never contacts the provider and only performs the local
removal. -/
theorem deleteContact_routesByUid
    (pd : String → Option String) (files : List String) (uid : String) :
    (containsDash uid = false →
        (deleteContact pd files uid).providerCalls = [uid]
      ∧ (∀ e, pd uid = some e →
            (deleteContact pd files uid).err
              = some ("failed to delete contact from provider: " ++ e)
          ∧ (deleteContact pd files uid).localFiles = files)
      ∧ (pd uid = none →
            (deleteContact pd files uid).localFiles
              = (removeLocalFile files uid).2
          ∧ (deleteContact pd files uid).err = (removeLocalFile files uid).1))
    ∧ (containsDash uid = true →
        (deleteContact pd files uid).providerCalls = []
      ∧ (deleteContact pd files uid).localFiles = (removeLocalFile files uid).2
      ∧ (deleteContact pd files uid).err = (removeLocalFile files uid).1) := by
  constructor
  · intro h
    cases hp : pd uid <;> simp [deleteContact, h, hp]
  · intro h
    simp [deleteContact, h]

/-- Witness for C1: a provider-style UID (`"123"`) with a failing provider
delete returns the wrapped error and leaves the local file in place, and a
local-style UID (`"ab-cd"`) never contacts the provider. -/
theorem deleteContact_routesByUid_witness :
    ((deleteContact (fun _ => some "boom") ["123"] "123").err
        = some ("failed to delete contact from provider: " ++ "boom")
      ∧ (deleteContact (fun _ => some "boom") ["123"] "123").localFiles
          = ["123"])
    ∧ (deleteContact (fun _ => none) ["ab-cd"] "ab-cd").providerCalls = [] := by
  refine ⟨⟨?_, ?_⟩, ?_⟩
  · exact (((deleteContact_routesByUid (fun _ => some "boom") ["123"] "123").1
      (by decide)).2.1 "boom" rfl).1
  · exact (((deleteContact_routesByUid (fun _ => some "boom") ["123"] "123").1
      (by decide)).2.1 "boom" rfl).2
  · exact ((deleteContact_routesByUid (fun _ => none) ["ab-cd"] "ab-cd").2
      (by decide)).1

/-! ### Claim C9: message sync aborts before persistence on provider error -/

/-- C9: if the provider's `Sync` fails, `MessageManager.Sync` returns that
error with no database call issued; on provider success the conversations are
saved first and the messages are saved only if the conversation save
succeeded. -/
theorem messageManagerSync_abortsOnProviderError :
    (∀ (e : String) saveConversationsErr saveMessagesErr,
        messageManagerSync (.error e) saveConversationsErr saveMessagesErr
          = (some e, []))
    ∧ (∀ (cs : List Conversation) (ms : List Message)
          saveConversationsErr saveMessagesErr,
        (saveConversationsErr cs = none →
          (messageManagerSync (.ok (cs, ms)) saveConversationsErr
              saveMessagesErr).2
            = [.saveConversations cs, .saveMessages ms])
        ∧ (∀ e, saveConversationsErr cs = some e →
          (messageManagerSync (.ok (cs, ms)) saveConversationsErr
              saveMessagesErr).2
            = [.saveConversations cs])) := by
  refine ⟨fun e _ _ => rfl, fun cs ms sc sm => ⟨fun h => ?_, fun e h => ?_⟩⟩
  · cases hm : sm ms <;> simp [messageManagerSync, h, hm]
  · simp [messageManagerSync, h]

/-- Witness for C9: with a failing provider nothing is saved; with a
succeeding provider and database, conversations are saved before messages. -/
theorem messageManagerSync_abortsOnProviderError_witness :
    messageManagerSync (Except.error "down") (fun _ => none) (fun _ => none)
        = (some "down", [])
    ∧ (messageManagerSync (Except.ok ([], [])) (fun _ => none)
        (fun _ => none)).2 = [.saveConversations [], .saveMessages []] := by
  exact ⟨messageManagerSync_abortsOnProviderError.1 "down" _ _,
    (messageManagerSync_abortsOnProviderError.2 [] [] _ _).1 rfl⟩

/-! ### Claim C5: message grouping rule -/

/-- C5: a message groups with its visual predecessor iff the predecessor
exists, the sender identifiers agree, both fall on the same calendar day, and
the timestamps differ by at most 5 minutes in either direction; in
particular 3 minutes apart groups and 6 minutes apart does not. -/
theorem shouldGroup_characterization :
    (∀ (msg : Message) (prevMsg : Option Message),
        shouldGroupWithPrevious msg prevMsg = true ↔
          ∃ prev, prevMsg = some prev
            ∧ msg.senderUID = prev.senderUID
            ∧ sameDay msg.timestamp prev.timestamp = true
            ∧ msg.timestamp.sub prev.timestamp ≤ 5 * 60 * 1000000000
            ∧ -(5 * 60 * 1000000000) ≤ msg.timestamp.sub prev.timestamp)
    ∧ shouldGroupWithPrevious (fixtureMsg 3 "x") (some (fixtureMsg 0 "y"))
        = true
    ∧ shouldGroupWithPrevious (fixtureMsg 6 "x") (some (fixtureMsg 0 "y"))
        = false := by
  refine ⟨fun msg prevMsg => ?_, by decide, by decide⟩
  cases prevMsg with
  | none => simp [shouldGroupWithPrevious]
  | some prev =>
    simp only [shouldGroupWithPrevious, Option.some.injEq,
      exists_eq_left']
    by_cases h1 : msg.senderUID = prev.senderUID
    · rw [if_neg (not_not_intro h1)]
      by_cases h2 : sameDay msg.timestamp prev.timestamp = true
      · rw [if_neg (not_not_intro h2)]
        by_cases h3 : msg.timestamp.sub prev.timestamp > 5 * 60 * 1000000000
            ∨ msg.timestamp.sub prev.timestamp < -(5 * 60 * 1000000000)
        · rw [if_pos h3]
          simp only [Bool.false_eq_true, false_iff]
          rintro ⟨-, -, hle, hge⟩
          omega
        · rw [if_neg h3]
          push_neg at h3
          simp only [true_iff]
          exact ⟨h1, h2, h3.1, h3.2⟩
      · rw [if_pos h2]
        simp only [Bool.false_eq_true, false_iff]
        rintro ⟨-, hday, -⟩
        exact h2 hday
    · rw [if_pos h1]
      simp only [Bool.false_eq_true, false_iff]
      rintro ⟨heq, -⟩
      exact h1 heq

/-! ### Claim C6: date-separator insertion -/

/-- Modelled from the spec's words, the tail of the separator-augmented
sequence: a separator is placed immediately before every message whose
calendar day differs from the preceding message's day, and nowhere else, with
every message kept once in order. -/
def separatorSpecTail (now : GoTime) (prev : Message) :
    List Message → List DisplayItem
  | [] => []
  | m :: rest =>
    (if sameDay m.timestamp prev.timestamp then [DisplayItem.message m]
     else [.separator ⟨formatDateSeparator now m.timestamp, m.timestamp⟩,
       .message m]) ++ separatorSpecTail now m rest

/-- Modelled from the spec's words: one separator immediately before the
first message and immediately before every day change. -/
def insertDateSeparatorsSpec (now : GoTime) : List Message → List DisplayItem
  | [] => []
  | m :: rest =>
    .separator ⟨formatDateSeparator now m.timestamp, m.timestamp⟩ ::
      .message m :: separatorSpecTail now m rest

/-- The messages of a display sequence, in order. -/
def messagesOf (items : List DisplayItem) : List Message :=
  items.filterMap fun item =>
    match item with
    | .message m => some m
    | .separator _ => none

theorem sameDay_congr {t1 t2 : GoTime} (x : GoTime)
    (h : t1.dateTriple = t2.dateTriple) : sameDay x t1 = sameDay x t2 := by
  simp only [GoTime.dateTriple, Prod.mk.injEq] at h
  simp [sameDay, h.1, h.2.1, h.2.2]

theorem sameDay_dateTriple {t1 t2 : GoTime} (h : sameDay t1 t2 = true) :
    t2.dateTriple = t1.dateTriple := by
  simp only [sameDay, Bool.and_eq_true, beq_iff_eq] at h
  simp [GoTime.dateTriple, h.1.1, h.1.2, h.2]

theorem insertDateSeparatorsLoop_eq_specTail (now : GoTime) :
    ∀ (rest : List Message) (prev : Message) (lastDate : GoTime),
      lastDate.dateTriple = prev.timestamp.dateTriple →
      insertDateSeparatorsLoop now lastDate rest
        = separatorSpecTail now prev rest := by
  intro rest
  induction rest with
  | nil => intro prev lastDate _; rfl
  | cons m ms ih =>
    intro prev lastDate h
    rw [insertDateSeparatorsLoop, separatorSpecTail,
      sameDay_congr m.timestamp h]
    by_cases hd : sameDay m.timestamp prev.timestamp = true
    · rw [if_neg (by simp [hd]), hd]
      simp only [List.cons_append, List.nil_append, ite_true,
        List.singleton_append]
      exact congrArg _ (ih m lastDate (h.trans (sameDay_dateTriple hd)))
    · rw [if_pos (by simpa using hd), if_neg hd]
      simp only [List.cons_append, List.nil_append]
      exact congrArg _ (congrArg _ (ih m m.timestamp rfl))

theorem messagesOf_specTail (now : GoTime) :
    ∀ (rest : List Message) (prev : Message),
      messagesOf (separatorSpecTail now prev rest) = rest := by
  intro rest
  induction rest with
  | nil => intro prev; rfl
  | cons m ms ih =>
    intro prev
    by_cases hd : sameDay m.timestamp prev.timestamp = true <;>
      simp [separatorSpecTail, messagesOf, hd] <;>
        simpa [messagesOf] using ih m

/-- C6: `insertDateSeparators` produces exactly one separator immediately
before the first message and immediately before every message whose calendar
day differs from the preceding message's; every message appears exactly once
in its original order.  In particular, messages on days D1, D1, D2 yield two
separators, one before each day's first message. -/
theorem insertDateSeparators_spec :
    (∀ (now : GoTime) (msgs : List Message),
        insertDateSeparators now msgs = insertDateSeparatorsSpec now msgs)
    ∧ (∀ (now : GoTime) (msgs : List Message),
        messagesOf (insertDateSeparators now msgs) = msgs)
    ∧ (∀ (d1a d1b d2 : Message),
        sameDay d1b.timestamp d1a.timestamp = true →
        sameDay d2.timestamp d1b.timestamp = false →
        ∀ now, insertDateSeparators now [d1a, d1b, d2]
          = [.separator ⟨formatDateSeparator now d1a.timestamp, d1a.timestamp⟩,
              .message d1a, .message d1b,
              .separator ⟨formatDateSeparator now d2.timestamp, d2.timestamp⟩,
              .message d2]) := by
  have key : ∀ (now : GoTime) (msgs : List Message),
      insertDateSeparators now msgs = insertDateSeparatorsSpec now msgs := by
    intro now msgs
    cases msgs with
    | nil => rfl
    | cons m rest =>
      rw [insertDateSeparators, insertDateSeparatorsSpec,
        insertDateSeparatorsLoop_eq_specTail now rest m m.timestamp rfl]
  refine ⟨key, fun now msgs => ?_, fun d1a d1b d2 h1 h2 now => ?_⟩
  · rw [key]
    cases msgs with
    | nil => rfl
    | cons m rest =>
      simpa [insertDateSeparatorsSpec, messagesOf] using
        messagesOf_specTail now rest m
  · rw [key]
    simp [insertDateSeparatorsSpec, separatorSpecTail, h1, h2]

/-- Witness for C6: the day-D1, D1, D2 clause applied to a concrete fixture
(two messages on 2024-06-01, one on 2024-06-02). -/
theorem insertDateSeparators_spec_witness :
    insertDateSeparators fixedNow
        [fixtureMsg 0 "a", fixtureMsg 1 "b",
          { fixtureMsg 2 "c" with timestamp := ⟨2024, 6, 2, 10, 2, 0, 0⟩ }]
      = [.separator ⟨formatDateSeparator fixedNow (fixtureMsg 0 "a").timestamp,
            (fixtureMsg 0 "a").timestamp⟩,
          .message (fixtureMsg 0 "a"), .message (fixtureMsg 1 "b"),
          .separator ⟨formatDateSeparator fixedNow ⟨2024, 6, 2, 10, 2, 0, 0⟩,
            ⟨2024, 6, 2, 10, 2, 0, 0⟩⟩,
          .message { fixtureMsg 2 "c" with
            timestamp := ⟨2024, 6, 2, 10, 2, 0, 0⟩ }] :=
  insertDateSeparators_spec.2.2 _ _ _ (by decide) (by decide) fixedNow

/-! ### Claim C7: UID provenance -/

theorem goSplitChar_no_sep (sep : Char) :
    ∀ l : List Char, (∀ c ∈ l, c ≠ sep) → goSplitChar sep l = [l] := by
  intro l
  induction l with
  | nil => intro _; rfl
  | cons c cs ih =>
    intro h
    rw [goSplitChar, if_neg (h c (List.mem_cons_self c cs)),
      ih fun x hx => h x (List.mem_cons_of_mem c hx)]

/-- C7: a UID generated for a contact written with an empty UID is a uuid
string, which always contains a hyphen; a contact converted from the People
API has the trailing segment of the provider resource name as its UID (e.g.
`"people/c8935729599066447265"` yields `"c8935729599066447265"`), which
contains no hyphen when the provider identifier is numeric. -/
theorem uid_provenance :
    (∀ bs : List Nat, containsDash (uuidString bs) = true)
    ∧ (∀ (now : GoTime) (c : Contact) (bs : List Nat), c.uid = "" →
        (writeContactRecord (uuidString bs) now c).uid = uuidString bs)
    ∧ (∀ person : PeopleAPIPerson,
        (convertPeopleAPIToContact person).uid = extractUID person.resourceName)
    ∧ (∀ ds : List Char, (∀ c ∈ ds, c.isDigit = true) →
        extractUID (String.mk
            ('p' :: 'e' :: 'o' :: 'p' :: 'l' :: 'e' :: '/' :: ds))
          = String.mk ds
        ∧ containsDash (String.mk ds) = false)
    ∧ extractUID "people/c8935729599066447265" = "c8935729599066447265" := by
  refine ⟨fun bs => ?_, fun now c bs h => ?_, fun person => rfl,
    fun ds hds => ⟨?_, ?_⟩, by decide⟩
  · simp only [containsDash, uuidString, List.elem_eq_mem, decide_eq_true_eq]
    exact List.mem_append_right _ (List.mem_cons_self _ _)
  · simp [writeContactRecord, h]
  · have hnos : ∀ c ∈ ds, c ≠ '/' := by
      intro c hc he
      have := hds c hc
      rw [he] at this
      exact absurd this (by decide)
    have hsplit : goSplitChar '/'
        ('p' :: 'e' :: 'o' :: 'p' :: 'l' :: 'e' :: '/' :: ds)
        = [['p', 'e', 'o', 'p', 'l', 'e'], ds] := by
      simp [goSplitChar, goSplitChar_no_sep '/' ds hnos]
    unfold extractUID
    rw [if_pos]
    · rw [hsplit]
      rfl
    · simp only [List.elem_eq_mem, decide_eq_true_eq]
      exact List.mem_cons_of_mem _ (List.mem_cons_of_mem _
        (List.mem_cons_of_mem _ (List.mem_cons_of_mem _
          (List.mem_cons_of_mem _ (List.mem_cons_of_mem _
            (List.mem_cons_self _ _))))))
  · have hnod : ∀ c ∈ ds, c ≠ '-' := by
      intro c hc he
      have := hds c hc
      rw [he] at this
      exact absurd this (by decide)
    simp only [containsDash, List.elem_eq_mem, decide_eq_false_iff_not]
    exact fun hmem => hnod '-' hmem rfl

/-- Witness for C7: the write-path clause applied to a concrete empty-UID
contact and concrete uuid bytes, and the numeric-segment clause applied to a
concrete numeric provider identifier. -/
theorem uid_provenance_witness :
    (writeContactRecord (uuidString [1, 2, 3]) fixedNow baseContact).uid
        = uuidString [1, 2, 3]
    ∧ extractUID (String.mk ('p' :: 'e' :: 'o' :: 'p' :: 'l' :: 'e' :: '/'
        :: ['4', '2'])) = String.mk ['4', '2'] := by
  exact ⟨uid_provenance.2.1 fixedNow baseContact [1, 2, 3] rfl,
    (uid_provenance.2.2.2.1 ['4', '2'] (by decide)).1⟩

/-! ### Claim C10: contacts TUI navigation invariant -/

/-- C10: every navigation key of the contacts TUI preserves
`0 ≤ viewportTop ≤ cursor ≤ len(contacts) - 1` when the contact list is
non-empty and the window height is at least 1. -/
theorem contactsNav_preservesInvariant (m : ContactsModel) (key : NavKey)
    (hne : m.contacts ≠ []) (hh : 1 ≤ m.height)
    (hinv : contactsNavInvariant m) :
    contactsNavInvariant (contactsNavUpdate m key) := by
  obtain ⟨h0, h1, h2⟩ := hinv
  have hn : 1 ≤ (m.contacts.length : Int) := by
    have : m.contacts.length ≠ 0 := fun h => hne (List.eq_nil_of_length_eq_zero h)
    omega
  cases key <;>
    simp only [contactsNavUpdate, contactsNavInvariant] <;>
    (try split_ifs) <;>
    (try dsimp only) <;>
    omega

/-- Witness for C10: the invariant holds after a `down` key on a concrete
one-contact model. -/
theorem contactsNav_preservesInvariant_witness :
    contactsNavInvariant
      (contactsNavUpdate ⟨[baseContact], 0, 0, 5⟩ NavKey.down) :=
  contactsNav_preservesInvariant ⟨[baseContact], 0, 0, 5⟩ NavKey.down
    (List.cons_ne_nil _ _) (by decide) ⟨by decide, by decide, by decide⟩

/-! ### Claim C3: greedy viewport measurement -/

theorem calcLoop_eq_greedy (now : GoTime)
    (startIndex width availableHeight : Int) :
    ∀ (items : List DisplayItem) (messageIndex linesUsed messageCount : Int)
      (prevMsg : Option Message),
      calcLoop now startIndex width availableHeight items
          messageIndex linesUsed messageCount prevMsg
        = greedyVisible availableHeight
            (recordsFrom now startIndex width items messageIndex prevMsg)
            linesUsed messageCount := by
  intro items
  induction items with
  | nil => intro _ _ _ _; rfl
  | cons item rest ih =>
    intro mi lu mc prev
    cases item with
    | message m =>
      by_cases h : mi < startIndex
      · simp only [calcLoop, recordsFrom, if_pos h]
        exact ih (mi + 1) lu mc prev
      · simp only [calcLoop, recordsFrom, if_neg h, greedyVisible]
        by_cases hov : lu + (countNewlines (formatMessage now m width prev) : Int)
            > availableHeight
        · rw [if_pos hov, if_pos hov]
        · rw [if_neg hov, if_neg hov]
          simpa using ih (mi + 1) _ (mc + 1) (some m)
    | separator sep =>
      by_cases h : mi ≥ startIndex
      · simp only [calcLoop, recordsFrom, if_pos h, greedyVisible]
        by_cases hov : lu + ((countNewlines (renderDateSeparator sep width) : Int) + 1)
            > availableHeight
        · rw [if_pos hov, if_pos hov]
        · rw [if_neg hov, if_neg hov]
          simpa using ih mi _ mc none
      · simp only [calcLoop, recordsFrom, if_neg h]
        exact ih mi lu mc prev

theorem calc_count_ge_one (now : GoTime) (msgs : List Message)
    (startIndex width availableHeight : Int)
    (h0 : msgs.length ≠ 0) (h1 : startIndex < (msgs.length : Int)) :
    1 ≤ calculateVisibleMessageCount now msgs startIndex width availableHeight := by
  unfold calculateVisibleMessageCount
  rw [if_neg (not_or.mpr ⟨h0, not_le.mpr h1⟩)]
  exact le_max_left 1 _

/-- C3 (amended): `calculateVisibleMessageCount` greedily accumulates the
rendered heights of the display records from the start index, stops before
the first record that would overflow the available height, counts only whole
messages, and returns at least 1; on the concrete fixture where every message
renders to exactly 2 lines the leading date separator also consumes 2 lines
of the budget, so `availableHeight = 10` yields 4 messages and
`availableHeight = 9` yields 3. -/
theorem calculateVisibleMessageCount_greedySpec :
    (∀ (now : GoTime) (msgs : List Message)
        (startIndex width availableHeight : Int),
        calculateVisibleMessageCount now msgs startIndex width availableHeight
          = if msgs.length = 0 ∨ startIndex ≥ (msgs.length : Int) then 0
            else max 1 (greedyVisible availableHeight
              (recordsFrom now startIndex width
                (insertDateSeparators now msgs) 0 none) 0 0))
    ∧ (∀ (now : GoTime) (msgs : List Message)
        (startIndex width availableHeight : Int),
        msgs.length ≠ 0 → startIndex < (msgs.length : Int) →
        1 ≤ calculateVisibleMessageCount now msgs startIndex width
              availableHeight)
    ∧ recordsFrom fixedNow 0 10 (insertDateSeparators fixedNow fixtureMsgs)
        0 none
        = [(false, 2), (true, 2), (true, 2), (true, 2), (true, 2), (true, 2),
            (true, 2)]
    ∧ calculateVisibleMessageCount fixedNow fixtureMsgs 0 10 10 = 4
    ∧ calculateVisibleMessageCount fixedNow fixtureMsgs 0 10 9 = 3 := by
  refine ⟨fun now msgs s w h => ?_, calc_count_ge_one, by decide, by decide,
    by decide⟩
  unfold calculateVisibleMessageCount
  by_cases hg : msgs.length = 0 ∨ s ≥ (msgs.length : Int)
  · rw [if_pos hg, if_pos hg]
  · rw [if_neg hg, if_neg hg]
    exact congrArg (max 1) (calcLoop_eq_greedy now s w h _ 0 0 0 none)

/-- Witness for C3: the minimum-1 clause applied at the concrete fixture. -/
theorem calculateVisibleMessageCount_greedySpec_witness :
    1 ≤ calculateVisibleMessageCount fixedNow fixtureMsgs 0 10 1 :=
  calculateVisibleMessageCount_greedySpec.2.1 fixedNow fixtureMsgs 0 10 1
    (by decide) (by decide)

/-- Counterexample to C3 as stated: on a fixture where every message renders
to exactly 2 lines (the six message records below all have height 2),
`availableHeight = 10` yields 4, not 5, and `availableHeight = 9` yields 3,
not 4 — the leading date separator (height 2) also consumes budget. -/
theorem calculateVisibleMessageCount_claim_counterexample :
    ((recordsFrom fixedNow 0 10 (insertDateSeparators fixedNow fixtureMsgs)
        0 none).filter (fun r => r.1)
      = List.replicate 6 (true, 2))
    ∧ calculateVisibleMessageCount fixedNow fixtureMsgs 0 10 10 ≠ 5
    ∧ calculateVisibleMessageCount fixedNow fixtureMsgs 0 10 9 ≠ 4 := by
  exact ⟨by decide, by decide, by decide⟩

/-! ### Claim C4: jump-to-end viewport positioning -/

/-- C4: for a non-empty message list the `G`/`end` probe loop always assigns
the viewport top, and the assigned value is the largest start index `s` with
`s + visibleCount(s) ≥ total` (which is `len - 1`, since `visibleCount` is at
least 1 at every valid start index). -/
theorem jumpToEnd_setsLargestStart (now : GoTime) (msgs : List Message)
    (width availableHeight : Int) (hne : msgs ≠ []) :
    jumpToEndViewTop now msgs width availableHeight = some (msgs.length - 1)
    ∧ ((msgs.length - 1 : Nat) : Int)
        + calculateVisibleMessageCount now msgs ((msgs.length - 1 : Nat) : Int)
            width availableHeight
        ≥ (msgs.length : Int)
    ∧ (∀ s : Nat, s < msgs.length →
        (s : Int) + calculateVisibleMessageCount now msgs (s : Int) width
            availableHeight ≥ (msgs.length : Int) →
        s ≤ msgs.length - 1) := by
  have hlen : msgs.length ≠ 0 := by
    simpa [List.length_eq_zero] using hne
  have hcount : ∀ s : Nat, s < msgs.length →
      1 ≤ calculateVisibleMessageCount now msgs (s : Int) width availableHeight := by
    intro s hs
    exact calc_count_ge_one now msgs (s : Int) width availableHeight hlen
      (by exact_mod_cast hs)
  refine ⟨?_, ?_, fun s hs _ => by omega⟩
  · unfold jumpToEndViewTop
    rw [if_neg hlen]
    cases hm : msgs.length with
    | zero => exact absurd hm hlen
    | succ n =>
      simp only [Nat.succ_sub_one]
      cases n with
      | zero =>
        have h1 := hcount 0 (by omega)
        push_cast at h1
        unfold jumpProbe
        rw [if_pos (by rw [hm]; push_cast; omega)]
      | succ i =>
        have h1 := hcount (i + 1) (by omega)
        unfold jumpProbe
        rw [if_pos (by push_cast at h1 ⊢; rw [hm]; push_cast; omega)]
  · have h1 := hcount (msgs.length - 1) (by omega)
    have h2 : ((msgs.length - 1 : Nat) : Int) = (msgs.length : Int) - 1 := by
      omega
    omega

/-- Witness for C4: on the concrete fixture of six messages the jump-to-end
probe assigns viewport top 5. -/
theorem jumpToEnd_setsLargestStart_witness :
    jumpToEndViewTop fixedNow fixtureMsgs 10 10 = some (fixtureMsgs.length - 1) :=
  (jumpToEnd_setsLargestStart fixedNow fixtureMsgs 10 10 (by decide)).1

end Dunbar

